import Mathlib

/-!
Verification of the Ppt-combine repository (combine_powerpoints.py,
combine_powerpoints_gui.py): a shallow embedding of the image
aspect-fit calculation, the raster-slide insertion, the reconstructive
shape copy, the file collector, the CLI combine pipeline and the GUI
combine worker, together with theorems settling the specification
claims C1-C10.

Python float arithmetic on pixel / EMU quantities is modelled with
exact rationals (`ℚ`); Python's `int()` truncation is modelled by
`pyInt`.  External-library behaviour (loading a presentation,
converting a PDF, rendering slides, saving the output) is represented
by boolean oracles carried on the input data, exactly at the points
where the scripts branch on success or failure of those calls.
-/

namespace PptCombine

/-- Python `int()` applied to a rational: truncation toward zero. -/
def pyInt (q : ℚ) : ℤ := if 0 ≤ q then ⌊q⌋ else ⌈q⌉

/-- A computed picture placement `(left, top, width, height)`,
as passed to `slide.shapes.add_picture`. -/
structure Placement where
  left : ℚ
  top : ℚ
  width : ℚ
  height : ℚ
deriving DecidableEq, Repr

/-- The aspect-fit calculation shared by `process_pdf`
(combine_powerpoints.py lines 69-87) and `add_fitted_image_slide`
(combine_powerpoints_gui.py lines 222-239): compare the image ratio
`img_w / img_h` with the canvas ratio `slide_width / slide_height`;
fit to the canvas width when the image is relatively wider, otherwise
fit to the canvas height, centering the other axis. -/
def aspectFit (img_w img_h slide_width slide_height : ℚ) : Placement :=
  let aspect_ratio := img_w / img_h
  let slide_ratio := slide_width / slide_height
  if aspect_ratio > slide_ratio then
    let new_w := slide_width
    let new_h := new_w / aspect_ratio
    { left := 0, top := (slide_height - new_h) / 2, width := new_w, height := new_h }
  else
    let new_h := slide_height
    let new_w := new_h * aspect_ratio
    { left := (slide_width - new_w) / 2, top := 0, width := new_w, height := new_h }

/-- The slide-layout index choice `6 if len(prs.slide_layouts) > 6 else
len(prs.slide_layouts) - 1`, duplicated at every slide-creation site of
both scripts. -/
def layout_idx (numLayouts : ℕ) : ℕ :=
  if 6 < numLayouts then 6 else numLayouts - 1

/-- C1 (amended).  For any image of width `w ≥ 0`, height `h > 0` and any
canvas of positive dimensions `cw × ch`, the aspect-fit placement
satisfies `width ≤ cw`, `height ≤ ch`, AT LEAST one of `width = cw` or
`height = ch` (both hold exactly when the two ratios coincide, so
"exactly one" is false in general), and the leftover axis is centered:
`left = (cw - width)/2` whenever `height = ch` and
`top = (ch - height)/2` whenever `width = cw`. -/
theorem claim_C1_amended (w h cw ch : ℚ) (hw : 0 ≤ w) (hh : 0 < h)
    (hcw : 0 < cw) (hch : 0 < ch) :
    (aspectFit w h cw ch).width ≤ cw ∧ (aspectFit w h cw ch).height ≤ ch ∧
      ((aspectFit w h cw ch).width = cw ∨ (aspectFit w h cw ch).height = ch) ∧
      ((aspectFit w h cw ch).height = ch →
        (aspectFit w h cw ch).left = (cw - (aspectFit w h cw ch).width) / 2) ∧
      ((aspectFit w h cw ch).width = cw →
        (aspectFit w h cw ch).top = (ch - (aspectFit w h cw ch).height) / 2) := by
  simp only [aspectFit]
  split_ifs with hr
  · have hcross : cw * h < w * ch := (div_lt_div_iff₀ hch hh).mp hr
    have hw' : (0 : ℚ) < w := by nlinarith [mul_pos hcw hh]
    have hfit : cw / (w / h) ≤ ch := by
      rw [div_div_eq_mul_div, div_le_iff₀ hw']
      nlinarith
    exact ⟨le_rfl, hfit, Or.inl rfl,
      fun _ => by show (0 : ℚ) = (cw - cw) / 2; ring, fun _ => rfl⟩
  · have hle : w / h ≤ cw / ch := not_lt.mp hr
    have hcross : w * ch ≤ cw * h := (div_le_div_iff₀ hh hch).mp hle
    have hfitw : ch * (w / h) ≤ cw := by
      rw [← mul_div_assoc, div_le_iff₀ hh]
      nlinarith
    exact ⟨hfitw, le_rfl, Or.inr rfl, fun _ => rfl,
      fun _ => by show (0 : ℚ) = (ch - ch) / 2; ring⟩

/-- Witness for C1 (amended): a concrete 4:3 image on a square canvas. -/
theorem claim_C1_amended_witness :
    (aspectFit 4 3 100 100).width ≤ 100 ∧ (aspectFit 4 3 100 100).height ≤ 100 ∧
      ((aspectFit 4 3 100 100).width = 100 ∨ (aspectFit 4 3 100 100).height = 100) ∧
      ((aspectFit 4 3 100 100).height = 100 →
        (aspectFit 4 3 100 100).left = (100 - (aspectFit 4 3 100 100).width) / 2) ∧
      ((aspectFit 4 3 100 100).width = 100 →
        (aspectFit 4 3 100 100).top = (100 - (aspectFit 4 3 100 100).height) / 2) :=
  claim_C1_amended 4 3 100 100 (by norm_num) (by norm_num) (by norm_num) (by norm_num)

/-- Counterexample to C1 as stated: for a 1×1 image on a 100×100 canvas
(image ratio equal to the canvas ratio) BOTH `width = cw` and
`height = ch` hold, so "exactly one of `newW == Cw` or `newH == Ch`"
fails. -/
theorem claim_C1_counterexample :
    ¬(((aspectFit 1 1 100 100).width = 100 ∧ ¬(aspectFit 1 1 100 100).height = 100) ∨
      (¬(aspectFit 1 1 100 100).width = 100 ∧ (aspectFit 1 1 100 100).height = 100)) := by
  have h1 : (aspectFit 1 1 100 100).width = 100 := by norm_num [aspectFit]
  have h2 : (aspectFit 1 1 100 100).height = 100 := by norm_num [aspectFit]
  simp [h1, h2]

/-! ## Reconstructive safe copy (`copy_slide_elements`, both scripts) -/

/-- A source shape, as inspected by `copy_slide_elements`: its kind
(`shape_type` / `has_text_frame`), whether a picture shape exposes an
`image` attribute, whether the third-party reconstruction call raises
for this shape (`raises`), plus its position and size.  `autoShape`
carries the `auto_shape_type` code; `otherTextFrame` is a shape whose
`has_text_frame` is true but whose type is neither `TEXT_BOX` nor
`AUTO_SHAPE`; `other` is any remaining kind (table, chart, group, ...). -/
inductive CShape
  | picture (hasImage raises : Bool) (l t w h : ℚ)
  | textBox (text : String) (raises : Bool) (l t w h : ℚ)
  | autoShape (autoType : ℕ) (text : String) (raises : Bool) (l t w h : ℚ)
  | otherTextFrame (text : String) (l t w h : ℚ)
  | other (l t w h : ℚ)
deriving DecidableEq, Repr

/-- A shape rebuilt in the destination slide by `copy_slide_elements`:
`add_picture`, `add_textbox` or `add_shape`, each at an explicit
position and size.  The text field holds the copied plain text (the
code assigns it only when the source text is nonempty; an unset text
frame is empty text, so the result is the source text either way). -/
inductive DShape
  | pic (l t w h : ℚ)
  | tbox (l t w h : ℚ) (text : String)
  | ashape (autoType : ℕ) (l t w h : ℚ) (text : String)
deriving DecidableEq, Repr

/-- Position and size of a source shape. -/
def srcBounds : CShape → ℚ × ℚ × ℚ × ℚ
  | .picture _ _ l t w h => (l, t, w, h)
  | .textBox _ _ l t w h => (l, t, w, h)
  | .autoShape _ _ _ l t w h => (l, t, w, h)
  | .otherTextFrame _ l t w h => (l, t, w, h)
  | .other l t w h => (l, t, w, h)

/-- Position and size of a reconstructed shape. -/
def dstBounds : DShape → ℚ × ℚ × ℚ × ℚ
  | .pic l t w h => (l, t, w, h)
  | .tbox l t w h _ => (l, t, w, h)
  | .ashape _ l t w h _ => (l, t, w, h)

/-- One iteration of the `copy_slide_elements` loop: the outcome for a
single source shape.  A picture with an `image` attribute is re-added
from its blob at the same bounds; a `TEXT_BOX` / `AUTO_SHAPE` with a
text frame is rebuilt at the same bounds with its plain text; every
other kind falls through the `if`/`elif` chain and contributes
nothing; a shape whose reconstruction raises is skipped by the
per-shape `except` handler.  (The GUI variant additionally copies the
first run's bold/size inside a nested bare `except`; that best-effort
formatting is not modelled.) -/
def copyShape : CShape → Option DShape
  | .picture hasImage raises l t w h =>
      if raises then none
      else if hasImage then some (.pic l t w h) else none
  | .textBox text raises l t w h =>
      if raises then none else some (.tbox l t w h text)
  | .autoShape ty text raises l t w h =>
      if raises then none else some (.ashape ty l t w h text)
  | .otherTextFrame _ _ _ _ _ => none
  | .other _ _ _ _ => none

/-- `copy_slide_elements` (combine_powerpoints.py lines 97-141,
combine_powerpoints_gui.py lines 280-333): reconstruct each source
shape in turn, skipping failures, never propagating an exception. -/
def copy_slide_elements (src : List CShape) : List DShape :=
  src.filterMap copyShape

/-- A shape of one of the three supported kinds. -/
def isSupported : CShape → Bool
  | .picture _ _ _ _ _ _ => true
  | .textBox _ _ _ _ _ _ => true
  | .autoShape _ _ _ _ _ _ _ => true
  | .otherTextFrame _ _ _ _ _ => false
  | .other _ _ _ _ => false

/-- A supported shape whose reconstruction succeeds: it does not raise
and, for a picture, exposes an `image` attribute. -/
def copyOk : CShape → Bool
  | .picture hasImage raises _ _ _ _ => !raises && hasImage
  | .textBox _ raises _ _ _ _ => !raises
  | .autoShape _ _ raises _ _ _ _ => !raises
  | .otherTextFrame _ _ _ _ _ => false
  | .other _ _ _ _ => false

theorem copyShape_eq_none (s : CShape) (h : isSupported s = false) :
    copyShape s = none := by
  cases s <;> simp_all [isSupported, copyShape]

theorem copyShape_ok (s : CShape) (h : copyOk s = true) :
    ∃ d, copyShape s = some d ∧ dstBounds d = srcBounds s := by
  cases s with
  | picture hasImage raises l t w hh =>
    simp only [copyOk, Bool.and_eq_true, Bool.not_eq_true'] at h
    exact ⟨.pic l t w hh, by simp [copyShape, h.1, h.2], rfl⟩
  | textBox text raises l t w hh =>
    simp only [copyOk, Bool.not_eq_true'] at h
    exact ⟨.tbox l t w hh text, by simp [copyShape, h], rfl⟩
  | autoShape ty text raises l t w hh =>
    simp only [copyOk, Bool.not_eq_true'] at h
    exact ⟨.ashape ty l t w hh text, by simp [copyShape, h], rfl⟩
  | otherTextFrame text l t w hh => simp [copyOk] at h
  | other l t w hh => simp [copyOk] at h

theorem copy_all_ok (l : List CShape) (h : ∀ s ∈ l, copyOk s = true) :
    (copy_slide_elements l).length = l.length ∧
      (copy_slide_elements l).map dstBounds = l.map srcBounds := by
  induction l with
  | nil => simp [copy_slide_elements]
  | cons a l ih =>
    obtain ⟨d, hd, hb⟩ := copyShape_ok a (h a (List.mem_cons_self a l))
    have ih' := ih (fun s hs => h s (List.mem_cons_of_mem a hs))
    simp [copy_slide_elements, List.filterMap_cons, hd] at ih' ⊢
    exact ⟨ih'.1, hb, ih'.2⟩

/-- C4.  The reconstructive safe copy never propagates an exception past
a single shape (it is a total function of the shape list): a source
slide holding one unsupported shape among `N` supported, successfully
reconstructible shapes yields exactly `N` reconstructed shapes in the
destination slide, each at the source shape's position and size. -/
theorem claim_C4 (xs ys : List CShape) (u : CShape)
    (hu : isSupported u = false)
    (hok : ∀ s ∈ xs ++ ys, copyOk s = true) :
    (copy_slide_elements (xs ++ u :: ys)).length = (xs ++ ys).length ∧
      (copy_slide_elements (xs ++ u :: ys)).map dstBounds =
        (xs ++ ys).map srcBounds := by
  have hskip : copy_slide_elements (xs ++ u :: ys) = copy_slide_elements (xs ++ ys) := by
    simp [copy_slide_elements, List.filterMap_append, List.filterMap_cons,
      copyShape_eq_none u hu]
  rw [hskip]
  exact copy_all_ok (xs ++ ys) hok

/-- Witness for C4: a picture and a text box around one unsupported
shape; the two supported shapes survive at their own bounds. -/
theorem claim_C4_witness :
    (copy_slide_elements ([CShape.picture true false 1 2 3 4] ++ CShape.other 0 0 9 9 ::
        [CShape.textBox "hi" false 5 6 7 8])).length =
      ([CShape.picture true false 1 2 3 4] ++ [CShape.textBox "hi" false 5 6 7 8]).length ∧
      (copy_slide_elements ([CShape.picture true false 1 2 3 4] ++ CShape.other 0 0 9 9 ::
          [CShape.textBox "hi" false 5 6 7 8])).map dstBounds =
        ([CShape.picture true false 1 2 3 4] ++ [CShape.textBox "hi" false 5 6 7 8]).map srcBounds :=
  claim_C4 [CShape.picture true false 1 2 3 4] [CShape.textBox "hi" false 5 6 7 8]
    (CShape.other 0 0 9 9) (by decide) (by decide)

/-! ## The accumulator document and raster-slide insertion -/

/-- A slide of the accumulator: the index of the destination layout it
was instantiated from, and its shapes. -/
structure Slide where
  layout : ℕ
  shapes : List DShape
deriving DecidableEq, Repr

/-- The accumulator presentation: canvas size (EMU), number of slide
layouts, and the ordered slide sequence. -/
structure Prs where
  slideWidth : ℚ
  slideHeight : ℚ
  numLayouts : ℕ
  slides : List Slide
deriving DecidableEq, Repr

/-- Result of one `add_fitted_image_slide` call: the mutated
presentation, whether the aspect-ratio adjustment fired (the branch
that logs "Adjusted presentation aspect ratio"), and whether the call
raised (a `ZeroDivisionError` escaping to the caller). -/
structure FitResult where
  prs : Prs
  adjusted : Bool
  raised : Bool
deriving DecidableEq, Repr

/-- `add_fitted_image_slide` (combine_powerpoints_gui.py lines
187-249).  Faithful to the statement order of the source: the slide is
added from the destination layout FIRST; then the `img_h == 0` guard
returns early; then, when `match_aspect_ratio` is set, the slide
height is reassigned to `int(prs.slide_width / img_ratio)` inside a
`try` whose `except` swallows the `ZeroDivisionError` of a zero image
ratio; then the fit is computed (raising out of the call if the —
possibly just adjusted — slide height is zero) and the picture is
placed on the new slide. -/
def add_fitted_image_slide (prs : Prs) (img_w img_h : ℚ)
    (match_aspect_ratio : Bool) : FitResult :=
  let li := layout_idx prs.numLayouts
  let prs1 : Prs := { prs with slides := prs.slides ++ [{ layout := li, shapes := [] }] }
  if img_h = 0 then { prs := prs1, adjusted := false, raised := false }
  else
    let img_ratio := img_w / img_h
    let step : Prs × Bool :=
      if match_aspect_ratio then
        if img_ratio = 0 then (prs1, false)
        else ({ prs1 with slideHeight := ((pyInt (prs1.slideWidth / img_ratio) : ℤ) : ℚ) }, true)
      else (prs1, false)
    if step.1.slideHeight = 0 then { prs := step.1, adjusted := step.2, raised := true }
    else
      let p := aspectFit img_w img_h step.1.slideWidth step.1.slideHeight
      { prs := { step.1 with slides := step.1.slides.dropLast ++
          [{ layout := li, shapes := [DShape.pic p.left p.top p.width p.height] }] },
        adjusted := step.2, raised := false }

/-- The page loop of the CLI `process_pdf` (combine_powerpoints.py
lines 56-94) over the page pixel sizes of one PDF, given the slide
dimensions read before the loop and the destination layout count.
Each page first gets a fresh slide from the destination layout; a page
of pixel height zero then raises `ZeroDivisionError` at
`aspect_ratio = img_w / img_h`, which the enclosing `except` of
`process_pdf` catches: the function returns `False`, the loop stops,
and every slide added so far (including the fresh empty one) stays in
the presentation. -/
def process_pdf_pages (slide_width slide_height : ℚ) (destLayouts : ℕ) :
    List (ℚ × ℚ) → Bool × List Slide
  | [] => (true, [])
  | (w, h) :: rest =>
    let s0 : Slide := { layout := layout_idx destLayouts, shapes := [] }
    if h = 0 then (false, [s0])
    else
      let p := aspectFit w h slide_width slide_height
      let r := process_pdf_pages slide_width slide_height destLayouts rest
      (r.1, { layout := layout_idx destLayouts,
              shapes := [DShape.pic p.left p.top p.width p.height] } :: r.2)

/-- C2 (amended).  Inserting a raster page of pixel height 0 computes
no placement and embeds no picture; in the guarded GUI variant no
division by zero occurs and even `match_aspect_ratio` does not resize
the canvas — but the operation is NOT a no-op: the slide created at
entry (before the guard) remains, so the accumulator gains exactly one
empty slide; in the unguarded CLI variant the division by zero is
raised and caught at file level, stopping the page loop with the
already-added empty slide likewise retained. -/
theorem claim_C2_amended (prs : Prs) (w : ℚ) (m : Bool)
    (sw sh : ℚ) (dl : ℕ) (cliW : ℚ) (rest : List (ℚ × ℚ)) :
    add_fitted_image_slide prs w 0 m =
      { prs := { prs with slides := prs.slides ++
          [{ layout := layout_idx prs.numLayouts, shapes := [] }] },
        adjusted := false, raised := false } ∧
    process_pdf_pages sw sh dl ((cliW, 0) :: rest) =
      (false, [{ layout := layout_idx dl, shapes := [] }]) := by
  constructor
  · simp [add_fitted_image_slide]
  · simp [process_pdf_pages]

/-- Counterexample to C2 as stated: inserting a 500×0 page into an
empty accumulator is not a no-op — a slide (an empty one) IS added. -/
theorem claim_C2_counterexample :
    ¬((add_fitted_image_slide
        { slideWidth := 9144000, slideHeight := 6858000, numLayouts := 11, slides := [] }
        500 0 false).prs =
      { slideWidth := 9144000, slideHeight := 6858000, numLayouts := 11, slides := [] }) := by
  intro hEq
  have hlen : (add_fitted_image_slide
      { slideWidth := 9144000, slideHeight := 6858000, numLayouts := 11, slides := [] }
      500 0 false).prs.slides.length = 0 := by rw [hEq]; rfl
  simp [add_fitted_image_slide] at hlen

/-! ## File collector (combine_powerpoints.py lines 151-171,
combine_powerpoints_gui.py lines 505-516)

Filenames are modelled as their character lists: `Path.glob("*.pptx")`
keeps names with that exact suffix, `sorted(files, key=lambda p:
p.name)` sorts lexicographically by code point (the order of
`List Char`), and the lock filter drops names starting with `~$`. -/

/-- Whether `n` ends with suffix `suf` (the effect of `glob("*" + suf)`
on a flat directory, and of the later `suffix.lower() == suf` dispatch
on the collected, lower-case-suffix names). -/
def hasSuffix (suf n : String) : Bool := suf.data.isSuffixOf n.data

/-- Whether `n` starts with the editor-lock prefix `~$`. -/
def isLockName (n : String) : Bool := "~$".data.isPrefixOf n.data

/-- The collector shared by both scripts, generic in how an entry
exposes its filename: glob the two extensions (in that order), sort
the union by name, then drop lock files. -/
def collectBy {α : Type} (nm : α → String) (entries : List α) : List α :=
  letI : DecidableRel (fun a b : α => (nm a).data ≤ (nm b).data) :=
    fun a b => inferInstanceAs (Decidable ((nm a).data ≤ (nm b).data))
  (List.insertionSort (fun a b => (nm a).data ≤ (nm b).data)
      (entries.filter (fun f => hasSuffix ".pptx" (nm f)) ++
       entries.filter (fun f => hasSuffix ".pdf" (nm f)))).filter
    (fun f => !isLockName (nm f))

/-- A candidate file: one of the two recognized kinds and not a lock
file. -/
def isCandidateName (n : String) : Bool :=
  (hasSuffix ".pptx" n || hasSuffix ".pdf" n) && !isLockName n

theorem collectBy_sorted {α : Type} (nm : α → String) (entries : List α) :
    (collectBy nm entries).Sorted (fun a b => (nm a).data ≤ (nm b).data) := by
  letI : DecidableRel (fun a b : α => (nm a).data ≤ (nm b).data) :=
    fun a b => inferInstanceAs (Decidable ((nm a).data ≤ (nm b).data))
  haveI : IsTotal α (fun a b : α => (nm a).data ≤ (nm b).data) :=
    ⟨fun a b => le_total (nm a).data (nm b).data⟩
  haveI : IsTrans α (fun a b : α => (nm a).data ≤ (nm b).data) :=
    ⟨fun _ _ _ h1 h2 => le_trans h1 h2⟩
  exact List.Pairwise.filter _ (List.sorted_insertionSort _ _)

theorem mem_collectBy {α : Type} (nm : α → String) (entries : List α) (f : α) :
    f ∈ collectBy nm entries ↔ f ∈ entries ∧ isCandidateName (nm f) = true := by
  unfold collectBy isCandidateName
  simp only [List.mem_filter, List.mem_insertionSort, List.mem_append,
    Bool.not_eq_true', Bool.and_eq_true, Bool.or_eq_true, Bool.not_eq_true]
  constructor
  · rintro ⟨⟨hf, hs⟩ | ⟨hf, hs⟩, hl⟩
    · exact ⟨hf, Or.inl hs, by simp [hl]⟩
    · exact ⟨hf, Or.inr hs, by simp [hl]⟩
  · rintro ⟨hf, hs | hs, hl⟩
    · exact ⟨Or.inl ⟨hf, hs⟩, by simp_all⟩
    · exact ⟨Or.inr ⟨hf, hs⟩, by simp_all⟩

/-! ## CLI pipeline (`combine_powerpoints`, `main`) -/

/-- An input file as the CLI sees it: its name, how many slides/pages
the external library yields for it, how many slide layouts its
presentation has (relevant only when it becomes the base), and whether
opening/converting it raises (`Presentation(path)` failure for a
`.pptx`, `convert_from_path` failure or missing `pdf2image` for a
`.pdf`). -/
structure CFile where
  name : String
  numPages : ℕ
  numLayouts : ℕ
  loadFails : Bool
deriving DecidableEq, Repr

/-- The collection step of `combine_powerpoints` (lines 151-171):
`None` models the `return False` paths — the input folder does not
exist, or no candidate file matched. -/
def cliCollect (dirExists : Bool) (entries : List CFile) : Option (List CFile) :=
  if dirExists then
    let files := collectBy (fun f => f.name) entries
    if files.isEmpty then none else some files
  else none

/-- A slide of the CLI output accumulator, tagged with its provenance
(source file name and within-file index) and, for slides created by
the combine loop, the destination layout index used; `none` marks a
slide that was already present in the base presentation. -/
structure OutSlide where
  src : String
  idx : ℕ
  layout : Option ℕ
deriving DecidableEq, Repr

/-- The slides contributed by one non-base file of the loop (lines
199-221): a `.pptx` that fails to open is logged and skipped; otherwise
each of its slides is safe-copied onto a fresh slide from the
destination's blank layout; a `.pdf` goes through `process_pdf`
(all pages, or nothing when conversion fails). -/
def cliFileSlides (destLayouts : ℕ) (f : CFile) : List OutSlide :=
  if f.loadFails then []
  else (List.range f.numPages).map
    (fun i => { src := f.name, idx := i, layout := some (layout_idx destLayouts) })

/-- The slides a base `.pptx` already contains when it is opened as the
accumulator (line 186). -/
def cliBaseSlides (f : CFile) : List OutSlide :=
  (List.range f.numPages).map (fun i => { src := f.name, idx := i, layout := none })

/-- `combine_powerpoints` (lines 143-231): collect candidates, pick the
first as base (its own document when it is a `.pptx`, else a blank
presentation with `blankLayouts` layouts), loop over the remaining
files in order, then save.  The boolean result is the function's
`True`/`False` return value; the list is the accumulator's slide
sequence. -/
def combine_powerpoints (dirExists : Bool) (entries : List CFile)
    (saveFails : Bool) (blankLayouts : ℕ) : Bool × List OutSlide :=
  match cliCollect dirExists entries with
  | none => (false, [])
  | some files =>
    match files with
    | [] => (false, [])
    | first :: rest =>
      if hasSuffix ".pptx" first.name then
        if first.loadFails then (false, [])
        else
          (!saveFails,
            rest.foldl (fun a f => a ++ cliFileSlides first.numLayouts f)
              (cliBaseSlides first))
      else
        (!saveFails,
          (first :: rest).foldl (fun a f => a ++ cliFileSlides blankLayouts f) [])

/-- `main` (lines 234-255): exit code 0 when `combine_powerpoints`
returned `True`, else 1 (`sys.exit(0)` / `sys.exit(1)`). -/
def cli_main_exit (dirExists : Bool) (entries : List CFile) (saveFails : Bool)
    (blankLayouts : ℕ) : ℕ :=
  if (combine_powerpoints dirExists entries saveFails blankLayouts).1 then 0 else 1

theorem foldl_append_eq_flatMap {α β : Type} (g : α → List β) :
    ∀ (l : List α) (acc : List β),
      l.foldl (fun a f => a ++ g f) acc = acc ++ l.flatMap g
  | [], acc => by simp
  | f :: l, acc => by
    simp [List.foldl_cons, foldl_append_eq_flatMap g l (acc ++ g f)]

/-- C6.  The file collector is a function of the directory listing
(hence deterministic); it fails when the directory does not exist;
any successful result is nonempty, sorted by filename, and consists
exactly of the candidate entries (recognized suffix, no `~$` lock
prefix); when no entry is a candidate — e.g. a folder containing only
`~$locked.pptx` — it fails. -/
theorem claim_C6 (dirExists : Bool) (entries : List CFile) :
    (cliCollect false entries = none) ∧
    (∀ fs, cliCollect dirExists entries = some fs →
      fs ≠ [] ∧ fs.Sorted (fun a b => a.name.data ≤ b.name.data) ∧
        ∀ f ∈ fs, f ∈ entries ∧ isCandidateName f.name = true) ∧
    ((∀ f ∈ entries, isCandidateName f.name = false) →
      cliCollect dirExists entries = none) ∧
    (∀ f ∈ entries, isCandidateName f.name = true →
      ∃ fs, cliCollect true entries = some fs ∧ f ∈ fs) := by
  refine ⟨by simp [cliCollect], ?_, ?_, ?_⟩
  · intro fs hfs
    cases dirExists with
    | false => simp [cliCollect] at hfs
    | true =>
      simp only [cliCollect, if_true] at hfs
      rcases hemp : (collectBy (fun f : CFile => f.name) entries).isEmpty with _ | _
      · rw [hemp] at hfs
        simp only [Bool.false_eq_true, if_false, Option.some.injEq] at hfs
        subst hfs
        refine ⟨by simpa [List.isEmpty_iff] using hemp, collectBy_sorted _ _, ?_⟩
        intro f hf
        exact (mem_collectBy _ _ _).mp hf
      · rw [hemp] at hfs
        simp at hfs
  · intro hnone
    have hempty : collectBy (fun f : CFile => f.name) entries = [] := by
      rcases h : collectBy (fun f : CFile => f.name) entries with _ | ⟨f, l⟩
      · rfl
      · exfalso
        have hmem : f ∈ collectBy (fun f : CFile => f.name) entries := by
          rw [h]; exact List.mem_cons_self f l
        obtain ⟨hfe, hcand⟩ := (mem_collectBy _ _ _).mp hmem
        rw [hnone f hfe] at hcand
        exact Bool.false_ne_true hcand
    cases dirExists <;> simp [cliCollect, hempty]
  · intro f hfe hcand
    have hmem : f ∈ collectBy (fun g : CFile => g.name) entries :=
      (mem_collectBy _ _ _).mpr ⟨hfe, hcand⟩
    have hne : (collectBy (fun g : CFile => g.name) entries).isEmpty = false := by
      rcases h : collectBy (fun g : CFile => g.name) entries with _ | _
      · rw [h] at hmem; cases hmem
      · simp [h]
    refine ⟨collectBy (fun g : CFile => g.name) entries, ?_, hmem⟩
    simp [cliCollect, hne]

/-- Witness for C6: a folder whose only entry is the lock file
`~$locked.pptx` is treated as empty — the collector fails. -/
theorem claim_C6_witness :
    cliCollect true [CFile.mk "~$locked.pptx" 1 1 false] = none :=
  (claim_C6 true [CFile.mk "~$locked.pptx" 1 1 false]).2.2.1 (by decide)

theorem cliFileSlides_proj (L : ℕ) (f : CFile) (h : f.loadFails = false) :
    (cliFileSlides L f).map (fun s => (s.src, s.idx)) =
      (List.range f.numPages).map (fun i => (f.name, i)) := by
  simp [cliFileSlides, h]

theorem cliBaseSlides_proj (f : CFile) :
    (cliBaseSlides f).map (fun s => (s.src, s.idx)) =
      (List.range f.numPages).map (fun i => (f.name, i)) := by
  simp [cliBaseSlides]

theorem cliSlides_flatMap_proj (L : ℕ) (l : List CFile)
    (h : ∀ f ∈ l, f.loadFails = false) :
    (l.flatMap (cliFileSlides L)).map (fun s => (s.src, s.idx)) =
      l.flatMap (fun f => (List.range f.numPages).map (fun i => (f.name, i))) := by
  induction l with
  | nil => simp
  | cons a l ih =>
    rw [List.flatMap_cons, List.flatMap_cons, List.map_append,
      cliFileSlides_proj L a (h a (List.mem_cons_self a l)),
      ih (fun f hf => h f (List.mem_cons_of_mem a hf))]

/-- C5.  When every collected file opens successfully, the accumulator's
slide provenance sequence is exactly the collected (name-sorted) file
order, and within each file the original slide/page order. -/
theorem claim_C5 (entries : List CFile) (blankLayouts : ℕ)
    (first : CFile) (rest : List CFile)
    (hc : cliCollect true entries = some (first :: rest))
    (hload : ∀ f ∈ first :: rest, f.loadFails = false) :
    (combine_powerpoints true entries false blankLayouts).2.map
        (fun s => (s.src, s.idx)) =
      (first :: rest).flatMap
        (fun f => (List.range f.numPages).map (fun i => (f.name, i))) := by
  have hfirst := hload first (List.mem_cons_self _ _)
  have hrest : ∀ f ∈ rest, f.loadFails = false :=
    fun f hf => hload f (List.mem_cons_of_mem _ hf)
  simp only [combine_powerpoints, hc]
  by_cases hp : hasSuffix ".pptx" first.name
  · simp only [hp, if_true, hfirst, Bool.false_eq_true, if_false,
      Bool.not_false]
    rw [foldl_append_eq_flatMap, List.map_append, cliBaseSlides_proj,
      cliSlides_flatMap_proj _ rest hrest, List.flatMap_cons]
  · simp only [hp, Bool.false_eq_true, if_false, Bool.not_false]
    rw [foldl_append_eq_flatMap, List.nil_append,
      cliSlides_flatMap_proj _ _ hload]

/-- Witness for C5: the spec's end-to-end example — `a.pptx` (2 slides),
`b.pdf` (3 pages), `c.pptx` (1 slide) yield six slides in the order
a1, a2, b1, b2, b3, c1. -/
theorem claim_C5_witness :
    (combine_powerpoints true
        [CFile.mk "a.pptx" 2 7 false, CFile.mk "b.pdf" 3 0 false,
         CFile.mk "c.pptx" 1 7 false] false 11).2.map (fun s => (s.src, s.idx)) =
      [("a.pptx", 0), ("a.pptx", 1), ("b.pdf", 0), ("b.pdf", 1), ("b.pdf", 2),
       ("c.pptx", 0)] := by
  rw [claim_C5
    [CFile.mk "a.pptx" 2 7 false, CFile.mk "b.pdf" 3 0 false,
     CFile.mk "c.pptx" 1 7 false] 11
    (CFile.mk "a.pptx" 2 7 false) [CFile.mk "b.pdf" 3 0 false, CFile.mk "c.pptx" 1 7 false]
    (by decide) (by decide)]
  decide

/-- C7.  The CLI exit code is 0 exactly when `combine_powerpoints`
returns success, and 1 on each failure mode: missing input directory,
no candidate files, base presentation failing to load, and the final
save raising. -/
theorem claim_C7 (entries : List CFile) (saveFails : Bool) (bl : ℕ) :
    (cli_main_exit false entries saveFails bl = 1) ∧
    (cliCollect true entries = none → cli_main_exit true entries saveFails bl = 1) ∧
    (∀ first rest, cliCollect true entries = some (first :: rest) →
      hasSuffix ".pptx" first.name = true → first.loadFails = true →
      cli_main_exit true entries saveFails bl = 1) ∧
    (saveFails = true → cli_main_exit true entries saveFails bl = 1) ∧
    (∀ first rest, cliCollect true entries = some (first :: rest) →
      (hasSuffix ".pptx" first.name = true → first.loadFails = false) →
      saveFails = false → cli_main_exit true entries saveFails bl = 0) ∧
    (cli_main_exit true entries saveFails bl = 0 ↔
      (combine_powerpoints true entries saveFails bl).1 = true) := by
  refine ⟨by simp [cli_main_exit, combine_powerpoints, cliCollect], ?_, ?_, ?_, ?_, ?_⟩
  · intro hc
    simp [cli_main_exit, combine_powerpoints, hc]
  · intro first rest hc hp hl
    simp [cli_main_exit, combine_powerpoints, hc, hp, hl]
  · intro hs
    subst hs
    rcases hc : cliCollect true entries with _ | fs
    · simp [cli_main_exit, combine_powerpoints, hc]
    · rcases fs with _ | ⟨first, rest⟩
      · simp [cli_main_exit, combine_powerpoints, hc]
      · by_cases hp : hasSuffix ".pptx" first.name
        · by_cases hl : first.loadFails
          · simp [cli_main_exit, combine_powerpoints, hc, hp, hl]
          · simp [cli_main_exit, combine_powerpoints, hc, hp, hl]
        · simp [cli_main_exit, combine_powerpoints, hc, hp]
  · intro first rest hc hnb hs
    subst hs
    by_cases hp : hasSuffix ".pptx" first.name
    · simp [cli_main_exit, combine_powerpoints, hc, hp, hnb hp]
    · simp [cli_main_exit, combine_powerpoints, hc, hp]
  · by_cases hb : (combine_powerpoints true entries saveFails bl).1 <;>
      simp [cli_main_exit, hb]

/-- Witness for C7: a single loadable `a.pptx` with a successful save
exits 0. -/
theorem claim_C7_witness :
    cli_main_exit true [CFile.mk "a.pptx" 2 7 false] false 11 = 0 :=
  (claim_C7 [CFile.mk "a.pptx" 2 7 false] false 11).2.2.2.2.1
    (CFile.mk "a.pptx" 2 7 false) [] (by decide) (fun _ => rfl) rfl

/-- C10.  A load failure of the FIRST candidate (when it is a `.pptx`)
aborts the whole run with failure and an empty result, before any
other file contributes; a load failure of any later file merely makes
that file contribute nothing (`cliFileSlides` is empty for it) while
the loop continues: the run still ends with `!saveFails` and every
other collected file's slides present. -/
theorem claim_C10 (entries : List CFile) (saveFails : Bool) (bl : ℕ)
    (first : CFile) (rest : List CFile)
    (hc : cliCollect true entries = some (first :: rest)) :
    (hasSuffix ".pptx" first.name = true → first.loadFails = true →
      combine_powerpoints true entries saveFails bl = (false, [])) ∧
    (hasSuffix ".pptx" first.name = true → first.loadFails = false →
      (combine_powerpoints true entries saveFails bl).1 = !saveFails ∧
      (combine_powerpoints true entries saveFails bl).2 =
        cliBaseSlides first ++ rest.flatMap (cliFileSlides first.numLayouts)) ∧
    (∀ f : CFile, f.loadFails = true → cliFileSlides first.numLayouts f = []) := by
  refine ⟨?_, ?_, ?_⟩
  · intro hp hl
    simp [combine_powerpoints, hc, hp, hl]
  · intro hp hl
    constructor
    · simp [combine_powerpoints, hc, hp, hl]
    · simp only [combine_powerpoints, hc, hp, if_true, hl, Bool.false_eq_true, if_false]
      rw [foldl_append_eq_flatMap]
  · intro f hf
    simp [cliFileSlides, hf]

/-- Witness for C10: a corrupt first `a.pptx` aborts the run with
`(false, [])` even though a healthy `b.pptx` follows. -/
theorem claim_C10_witness :
    combine_powerpoints true
        [CFile.mk "a.pptx" 2 7 true, CFile.mk "b.pptx" 3 7 false] false 11 =
      (false, []) :=
  (claim_C10 [CFile.mk "a.pptx" 2 7 true, CFile.mk "b.pptx" 3 7 false] false 11
    (CFile.mk "a.pptx" 2 7 true) [CFile.mk "b.pptx" 3 7 false] (by decide)).1
    (by decide) rfl

theorem mem_cliFileSlides_layout (L : ℕ) (f : CFile) (s : OutSlide)
    (h : s ∈ cliFileSlides L f) : s.layout = some (layout_idx L) := by
  unfold cliFileSlides at h
  split_ifs at h
  · cases h
  · obtain ⟨i, _, rfl⟩ := List.mem_map.mp h
    rfl

/-- C9.  Every slide the combine step creates is instantiated from the
DESTINATION accumulator's layouts, at index 6 when it has more than 6
layouts and at its last index otherwise; pre-existing base slides keep
their own layout (marked `none` in the model) and no source layout is
ever consulted.  The GUI's `add_fitted_image_slide` likewise appends
exactly one slide built on `layout_idx` of the destination's layout
count. -/
theorem claim_C9 (prs : Prs) (iw ihh : ℚ) (m : Bool)
    (entries : List CFile) (saveFails : Bool) (bl : ℕ)
    (first : CFile) (rest : List CFile) :
    (∀ k, 6 < k → layout_idx k = 6) ∧
    (∀ k, 0 < k → k ≤ 6 → layout_idx k = k - 1) ∧
    ((add_fitted_image_slide prs iw ihh m).prs.slides.map Slide.layout =
      prs.slides.map Slide.layout ++ [layout_idx prs.numLayouts]) ∧
    (cliCollect true entries = some (first :: rest) →
      ∀ s ∈ (combine_powerpoints true entries saveFails bl).2,
        s.layout = none ∨
        s.layout = some (layout_idx
          (if hasSuffix ".pptx" first.name then first.numLayouts else bl))) := by
  refine ⟨?_, ?_, ?_, ?_⟩
  · intro k hk
    simp [layout_idx, hk]
  · intro k _ hk6
    simp [layout_idx, Nat.not_lt.mpr hk6]
  · simp only [add_fitted_image_slide]
    split_ifs <;>
      simp [List.dropLast_concat]
  · intro hc s hs
    simp only [combine_powerpoints, hc] at hs
    by_cases hp : hasSuffix ".pptx" first.name
    · simp only [hp, if_true] at hs ⊢
      by_cases hl : first.loadFails
      · simp [hl] at hs
      · simp only [hl, Bool.false_eq_true, if_false] at hs
        rw [foldl_append_eq_flatMap] at hs
        rcases List.mem_append.mp hs with hb | hm
        · obtain ⟨i, _, rfl⟩ := List.mem_map.mp hb
          exact Or.inl rfl
        · obtain ⟨f, _, hsf⟩ := List.mem_flatMap.mp hm
          exact Or.inr (mem_cliFileSlides_layout _ _ _ hsf)
    · simp only [hp, Bool.false_eq_true, if_false] at hs ⊢
      rw [foldl_append_eq_flatMap, List.nil_append] at hs
      obtain ⟨f, _, hsf⟩ := List.mem_flatMap.mp hs
      exact Or.inr (mem_cliFileSlides_layout _ _ _ hsf)

/-- Witness for C9: applied to a concrete accumulator (11 layouts, so
index 6 is used) and the two-file CLI run of the C10 scenario. -/
theorem claim_C9_witness :
    (∀ k, 6 < k → layout_idx k = 6) ∧
    (∀ k, 0 < k → k ≤ 6 → layout_idx k = k - 1) ∧
    ((add_fitted_image_slide (Prs.mk 9144000 6858000 11 []) 4 3 false).prs.slides.map
        Slide.layout =
      (Prs.mk 9144000 6858000 11 []).slides.map Slide.layout ++ [layout_idx 11]) ∧
    (cliCollect true [CFile.mk "a.pptx" 2 7 false] =
        some [CFile.mk "a.pptx" 2 7 false] →
      ∀ s ∈ (combine_powerpoints true [CFile.mk "a.pptx" 2 7 false] false 11).2,
        s.layout = none ∨
        s.layout = some (layout_idx
          (if hasSuffix ".pptx" (CFile.mk "a.pptx" 2 7 false).name then
            (CFile.mk "a.pptx" 2 7 false).numLayouts else 11))) :=
  claim_C9 (Prs.mk 9144000 6858000 11 []) 4 3 false
    [CFile.mk "a.pptx" 2 7 false] false 11
    (CFile.mk "a.pptx" 2 7 false) []

/-! ## GUI worker (`do_combine`, combine_powerpoints_gui.py lines 498-671)

The cooperative cancellation flag is a time-varying external input,
modelled as a function `flag : ℕ → Bool` of a read counter: every
`self.cancel_flag.is_set()` call reads `flag` at the current tick and
advances the tick.  `obs` records whether some loop check observed the
flag set (the code paths that `break`). -/

/-- An input file as the GUI worker sees it.  `pages` are the raster
page dimensions produced for it (PDF pages via `convert_from_path`, or
the PNGs exported by the AppleScript bridge); `slides` are its native
slides for the safe-copy fallback; `prsW`/`prsH`/`numLayouts`/
`baseSlides` describe `Presentation(file)` when it becomes the base;
`loadFails` models `Presentation(path)` / `convert_from_path` raising;
`renderOk` models the AppleScript PPTX→PDF→PNG pipeline succeeding. -/
structure GFile where
  name : String
  pages : List (ℚ × ℚ)
  slides : List (List CShape)
  prsW : ℚ
  prsH : ℚ
  numLayouts : ℕ
  baseSlides : List Slide
  loadFails : Bool
  renderOk : Bool
deriving DecidableEq, Repr

/-- Worker state: accumulator, flag-read counter, whether a loop check
observed the flag set, and the recorded aspect-adjustment events (the
accumulator slide count at entry of each call that logged "Adjusted
presentation aspect ratio"). -/
structure GState where
  prs : Prs
  tick : ℕ
  obs : Bool
  adjusts : List ℕ
deriving Repr

/-- The page loop of the GUI `process_pdf` (lines 268-271): no
cancellation check; each page is added with
`match_aspect_ratio = (is_first_file and i == 0)`; an exception
escaping `add_fitted_image_slide` stops the loop (caught by
`process_pdf`'s own `except`), keeping the state mutated so far. -/
def gui_pdf_loop (isFirst : Bool) :
    List (ℚ × ℚ) → ℕ → Prs → List ℕ → Prs × List ℕ
  | [], _, prs, adj => (prs, adj)
  | (w, h) :: rest, i, prs, adj =>
    let r := add_fitted_image_slide prs w h (isFirst && i == 0)
    let adj2 := if r.adjusted then adj ++ [prs.slides.length] else adj
    if r.raised then (r.prs, adj2)
    else gui_pdf_loop isFirst rest (i + 1) r.prs adj2

/-- The exported-image loop of the AppleScript path (lines 603-609):
checks the cancellation flag before each image and breaks when set;
each image is added inside a per-image `try`/`except`, so a raising
call is skipped and the loop continues. -/
def gui_img_loop (flag : ℕ → Bool) (isVF : Bool) :
    List (ℚ × ℚ) → ℕ → GState → GState
  | [], _, st => st
  | (w, h) :: rest, j, st =>
    if flag st.tick then { st with tick := st.tick + 1, obs := true }
    else
      let st1 : GState := { st with tick := st.tick + 1 }
      let r := add_fitted_image_slide st1.prs w h (isVF && j == 0)
      let adj2 := if r.adjusted then st1.adjusts ++ [st1.prs.slides.length]
                  else st1.adjusts
      gui_img_loop flag isVF rest (j + 1) { st1 with prs := r.prs, adjusts := adj2 }

/-- The safe-copy slide loop (lines 629-638): checks the cancellation
flag before each slide and breaks when set; otherwise adds a slide
from the destination's blank layout and reconstructs the source
shapes onto it. -/
def gui_copy_loop (flag : ℕ → Bool) : List (List CShape) → GState → GState
  | [], st => st
  | shapes :: rest, st =>
    if flag st.tick then { st with tick := st.tick + 1, obs := true }
    else
      let st1 : GState := { st with tick := st.tick + 1 }
      let newSlide : Slide := Slide.mk (layout_idx st1.prs.numLayouts)
        (copy_slide_elements shapes)
      gui_copy_loop flag rest
        { st1 with prs := { st1.prs with slides := st1.prs.slides ++ [newSlide] } }

/-- Processing of one file of `files_to_process` (lines 572-645): a
`.pptx` goes through the AppleScript image path when the mode is on,
PowerPoint is available and the export yielded images, else through
the safe-copy fallback (skipped entirely when `Presentation(path)`
raises); a `.pdf` goes through `process_pdf` (skipped when conversion
fails). -/
def gui_process_file (flag : ℕ → Bool) (convertImages canAS isVF : Bool)
    (f : GFile) (st : GState) : GState :=
  if hasSuffix ".pptx" f.name then
    if convertImages && canAS && f.renderOk && !f.pages.isEmpty then
      gui_img_loop flag isVF f.pages 0 st
    else if f.loadFails then st
    else gui_copy_loop flag f.slides st
  else if hasSuffix ".pdf" f.name then
    if f.loadFails then st
    else
      let r := gui_pdf_loop isVF f.pages 0 st.prs st.adjusts
      { st with prs := r.1, adjusts := r.2 }
  else st

/-- The file loop (lines 556-648): checks the cancellation flag at the
top of each iteration and breaks when set;
`is_very_first = started_blank and i == 0`. -/
def gui_file_loop (flag : ℕ → Bool) (convertImages canAS startedBlank : Bool) :
    List GFile → ℕ → GState → GState
  | [], _, st => st
  | f :: rest, i, st =>
    if flag st.tick then { st with tick := st.tick + 1, obs := true }
    else
      let st1 : GState := { st with tick := st.tick + 1 }
      let st2 := gui_process_file flag convertImages canAS
        (startedBlank && i == 0) f st1
      gui_file_loop flag convertImages canAS startedBlank rest (i + 1) st2

/-- Result of one GUI combine run: final accumulator, whether a loop
check observed cancellation, the adjustment events, and whether
`combined_prs.save` ran (the final `if not self.cancel_flag.is_set()`
reads the flag once more; the error/empty early returns never save). -/
structure GResult where
  prs : Prs
  obs : Bool
  adjusts : List ℕ
  saved : Bool
deriving Repr

/-- `do_combine` (lines 498-671): collect candidates (same glob, sort
and lock filter as the CLI); empty collection shows an error dialog
and returns without saving; a base `.pptx` that fails to load raises
into the outer `except` (no save); otherwise the file loop runs and
the save is guarded by a final flag read. -/
def gui_do_combine (flag : ℕ → Bool) (convertImages canAS : Bool)
    (entries : List GFile) (blankW blankH : ℚ) (blankLayouts : ℕ) : GResult :=
  match collectBy (fun f => f.name) entries with
  | [] =>
    { prs := Prs.mk blankW blankH blankLayouts [], obs := false, adjusts := [],
      saved := false }
  | first :: rest =>
    if hasSuffix ".pptx" first.name then
      if first.loadFails then
        { prs := Prs.mk blankW blankH blankLayouts [], obs := false, adjusts := [],
          saved := false }
      else
        let st0 : GState :=
          ⟨Prs.mk first.prsW first.prsH first.numLayouts first.baseSlides, 0, false, []⟩
        let st := gui_file_loop flag convertImages canAS false rest 0 st0
        { prs := st.prs, obs := st.obs, adjusts := st.adjusts,
          saved := !(flag st.tick) }
    else
      let st0 : GState := ⟨Prs.mk blankW blankH blankLayouts [], 0, false, []⟩
      let st := gui_file_loop flag convertImages canAS true (first :: rest) 0 st0
      { prs := st.prs, obs := st.obs, adjusts := st.adjusts,
        saved := !(flag st.tick) }

/-- The observation invariant: if a loop check has observed the flag
set, it was set at some earlier tick. -/
def obsSound (flag : ℕ → Bool) (st : GState) : Prop :=
  st.obs = true → ∃ t, t < st.tick ∧ flag t = true

theorem gui_copy_loop_invar (flag : ℕ → Bool) :
    ∀ (l : List (List CShape)) (st : GState),
      st.tick ≤ (gui_copy_loop flag l st).tick ∧
      (obsSound flag st → obsSound flag (gui_copy_loop flag l st))
  | [], st => ⟨le_rfl, fun h => h⟩
  | shapes :: rest, st => by
    unfold gui_copy_loop
    by_cases hf : flag st.tick
    · simp only [hf, if_true]
      exact ⟨Nat.le_succ _, fun _ _ => ⟨st.tick, Nat.lt_succ_self _, hf⟩⟩
    · simp only [hf, Bool.false_eq_true, if_false]
      have ih := gui_copy_loop_invar flag rest
        (GState.mk
          { st.prs with slides := st.prs.slides ++
              [Slide.mk (layout_idx st.prs.numLayouts) (copy_slide_elements shapes)] }
          (st.tick + 1) st.obs st.adjusts)
      refine ⟨le_trans (Nat.le_succ _) ih.1, fun hs => ih.2 ?_⟩
      intro ho
      obtain ⟨t, ht, hft⟩ := hs ho
      exact ⟨t, lt_trans ht (Nat.lt_succ_self _), hft⟩

theorem gui_img_loop_invar (flag : ℕ → Bool) (isVF : Bool) :
    ∀ (l : List (ℚ × ℚ)) (j : ℕ) (st : GState),
      st.tick ≤ (gui_img_loop flag isVF l j st).tick ∧
      (obsSound flag st → obsSound flag (gui_img_loop flag isVF l j st))
  | [], _, st => ⟨le_rfl, fun h => h⟩
  | (w, h) :: rest, j, st => by
    unfold gui_img_loop
    by_cases hf : flag st.tick
    · simp only [hf, if_true]
      exact ⟨Nat.le_succ _, fun _ _ => ⟨st.tick, Nat.lt_succ_self _, hf⟩⟩
    · simp only [hf, Bool.false_eq_true, if_false]
      have ih := gui_img_loop_invar flag isVF rest (j + 1)
        (GState.mk (add_fitted_image_slide st.prs w h (isVF && j == 0)).prs
          (st.tick + 1) st.obs
          (if (add_fitted_image_slide st.prs w h (isVF && j == 0)).adjusted then
            st.adjusts ++ [st.prs.slides.length] else st.adjusts))
      refine ⟨le_trans (Nat.le_succ _) ih.1, fun hs => ih.2 ?_⟩
      intro ho
      obtain ⟨t, ht, hft⟩ := hs ho
      exact ⟨t, lt_trans ht (Nat.lt_succ_self _), hft⟩

theorem gui_process_file_invar (flag : ℕ → Bool) (cI cAS isVF : Bool)
    (f : GFile) (st : GState) :
    st.tick ≤ (gui_process_file flag cI cAS isVF f st).tick ∧
    (obsSound flag st → obsSound flag (gui_process_file flag cI cAS isVF f st)) := by
  unfold gui_process_file
  split_ifs with h1 h2 h3 h4 h5
  · exact gui_img_loop_invar flag isVF f.pages 0 st
  · exact ⟨le_rfl, fun h => h⟩
  · exact gui_copy_loop_invar flag f.slides st
  · exact ⟨le_rfl, fun h => h⟩
  · exact ⟨le_rfl, fun h => h⟩
  · exact ⟨le_rfl, fun h => h⟩

theorem gui_file_loop_invar (flag : ℕ → Bool) (cI cAS sb : Bool) :
    ∀ (files : List GFile) (i : ℕ) (st : GState),
      st.tick ≤ (gui_file_loop flag cI cAS sb files i st).tick ∧
      (obsSound flag st → obsSound flag (gui_file_loop flag cI cAS sb files i st))
  | [], _, st => ⟨le_rfl, fun h => h⟩
  | f :: rest, i, st => by
    unfold gui_file_loop
    by_cases hf : flag st.tick
    · simp only [hf, if_true]
      exact ⟨Nat.le_succ _, fun _ _ => ⟨st.tick, Nat.lt_succ_self _, hf⟩⟩
    · simp only [hf, Bool.false_eq_true, if_false]
      have hpf := gui_process_file_invar flag cI cAS (sb && i == 0) f
        { st with tick := st.tick + 1 }
      have ih := gui_file_loop_invar flag cI cAS sb rest (i + 1)
        (gui_process_file flag cI cAS (sb && i == 0) f { st with tick := st.tick + 1 })
      refine ⟨le_trans (Nat.le_succ _) (le_trans hpf.1 ih.1),
        fun hs => ih.2 (hpf.2 ?_)⟩
      intro ho
      obtain ⟨t, ht, hft⟩ := hs ho
      exact ⟨t, lt_trans ht (Nat.lt_succ_self _), hft⟩

/-- C8.  With a monotone cancellation flag (a `threading.Event` is
never cleared during a run), whenever some loop check observes the
flag set, the final pre-save check also sees it set: the run stops
before the save step and no output file is written. -/
theorem claim_C8 (flag : ℕ → Bool) (cI cAS : Bool) (entries : List GFile)
    (bW bH : ℚ) (bL : ℕ)
    (hmono : ∀ i j, i ≤ j → flag i = true → flag j = true)
    (hobs : (gui_do_combine flag cI cAS entries bW bH bL).obs = true) :
    (gui_do_combine flag cI cAS entries bW bH bL).saved = false := by
  rcases hcol : collectBy (fun f : GFile => f.name) entries with _ | ⟨first, rest⟩
  · unfold gui_do_combine at hobs
    rw [hcol] at hobs
    cases hobs
  · unfold gui_do_combine at hobs ⊢
    rw [hcol] at hobs ⊢
    by_cases hp : hasSuffix ".pptx" first.name
    · simp only [hp, if_true] at hobs ⊢
      by_cases hl : first.loadFails
      · rw [if_pos hl] at hobs
        cases hobs
      · rw [if_neg hl] at hobs ⊢
        have hinv := gui_file_loop_invar flag cI cAS false rest 0
          ⟨Prs.mk first.prsW first.prsH first.numLayouts first.baseSlides, 0, false, []⟩
        obtain ⟨t, ht, hft⟩ := hinv.2 (fun h => by cases h) hobs
        have := hmono t _ (Nat.le_of_lt ht) hft
        simp [this]
    · simp only [hp, Bool.false_eq_true, if_false] at hobs ⊢
      have hinv := gui_file_loop_invar flag cI cAS true (first :: rest) 0
        ⟨Prs.mk bW bH bL [], 0, false, []⟩
      obtain ⟨t, ht, hft⟩ := hinv.2 (fun h => by cases h) hobs
      have := hmono t _ (Nat.le_of_lt ht) hft
      simp [this]

/-- Witness for C8: a permanently set flag on a one-PDF run is observed
at the first file check and the output is not saved. -/
theorem claim_C8_witness :
    (gui_do_combine (fun _ => true) false false
      [GFile.mk "x.pdf" [(4, 3)] [] 0 0 0 [] false false] 12 9 11).saved = false :=
  claim_C8 (fun _ => true) false false
    [GFile.mk "x.pdf" [(4, 3)] [] 0 0 0 [] false false] 12 9 11
    (fun _ _ _ h => h) (by decide)

theorem add_fitted_not_adjusted (prs : Prs) (w h : ℚ) :
    (add_fitted_image_slide prs w h false).adjusted = false := by
  simp only [add_fitted_image_slide]
  split_ifs <;> simp_all

theorem beq_zero_of_pos {i : ℕ} (h : 1 ≤ i) : (i == 0) = false := by
  cases i with
  | zero => omega
  | succ n => rfl

theorem gui_pdf_loop_adjusts_not_first :
    ∀ (pages : List (ℚ × ℚ)) (i : ℕ) (prs : Prs) (adj : List ℕ),
      (gui_pdf_loop false pages i prs adj).2 = adj
  | [], _, _, adj => rfl
  | (w, h) :: rest, i, prs, adj => by
    unfold gui_pdf_loop
    simp only [Bool.false_and, add_fitted_not_adjusted, Bool.false_eq_true,
      if_false]
    split_ifs
    · rfl
    · exact gui_pdf_loop_adjusts_not_first rest (i + 1) _ adj

theorem gui_pdf_loop_adjusts_later :
    ∀ (pages : List (ℚ × ℚ)) (i : ℕ), 1 ≤ i → ∀ (prs : Prs) (adj : List ℕ),
      (gui_pdf_loop true pages i prs adj).2 = adj
  | [], _, _, _, adj => rfl
  | (w, h) :: rest, i, hi, prs, adj => by
    unfold gui_pdf_loop
    rw [beq_zero_of_pos hi]
    simp only [Bool.and_false, add_fitted_not_adjusted, Bool.false_eq_true,
      if_false]
    split_ifs
    · rfl
    · exact gui_pdf_loop_adjusts_later rest (i + 1) (by omega) _ adj

theorem gui_pdf_loop_adjusts_first (pages : List (ℚ × ℚ)) (prs : Prs)
    (adj : List ℕ) :
    (gui_pdf_loop true pages 0 prs adj).2 = adj ∨
    (gui_pdf_loop true pages 0 prs adj).2 = adj ++ [prs.slides.length] := by
  cases pages with
  | nil => exact Or.inl rfl
  | cons p rest =>
    obtain ⟨w, h⟩ := p
    unfold gui_pdf_loop
    rw [show (true && ((0 : ℕ) == 0)) = true from rfl]
    by_cases ha : (add_fitted_image_slide prs w h true).adjusted
    · by_cases hr : (add_fitted_image_slide prs w h true).raised
      · right
        simp [ha, hr]
      · right
        simp only [ha, if_true, hr, Bool.false_eq_true, if_false]
        exact gui_pdf_loop_adjusts_later rest 1 le_rfl _ _
    · by_cases hr : (add_fitted_image_slide prs w h true).raised
      · left
        simp [ha, hr]
      · left
        simp only [ha, Bool.false_eq_true, if_false, hr]
        exact gui_pdf_loop_adjusts_later rest 1 le_rfl _ _

theorem gui_copy_loop_adjusts (flag : ℕ → Bool) :
    ∀ (l : List (List CShape)) (st : GState),
      (gui_copy_loop flag l st).adjusts = st.adjusts
  | [], st => rfl
  | shapes :: rest, st => by
    unfold gui_copy_loop
    by_cases hf : flag st.tick
    · simp [hf]
    · simp only [hf, Bool.false_eq_true, if_false]
      exact gui_copy_loop_adjusts flag rest _

theorem gui_img_loop_adjusts_not_vf (flag : ℕ → Bool) :
    ∀ (l : List (ℚ × ℚ)) (j : ℕ) (st : GState),
      (gui_img_loop flag false l j st).adjusts = st.adjusts
  | [], _, st => rfl
  | (w, h) :: rest, j, st => by
    unfold gui_img_loop
    by_cases hf : flag st.tick
    · simp [hf]
    · simp only [hf, Bool.false_eq_true, if_false, Bool.false_and,
        add_fitted_not_adjusted]
      exact gui_img_loop_adjusts_not_vf flag rest (j + 1) _

theorem gui_img_loop_adjusts_later (flag : ℕ → Bool) :
    ∀ (l : List (ℚ × ℚ)) (j : ℕ), 1 ≤ j → ∀ (st : GState),
      (gui_img_loop flag true l j st).adjusts = st.adjusts
  | [], _, _, st => rfl
  | (w, h) :: rest, j, hj, st => by
    unfold gui_img_loop
    by_cases hf : flag st.tick
    · simp [hf]
    · rw [beq_zero_of_pos hj]
      simp only [hf, Bool.false_eq_true, if_false, Bool.and_false,
        add_fitted_not_adjusted]
      exact gui_img_loop_adjusts_later flag rest (j + 1) (by omega) _

theorem gui_img_loop_adjusts_first (flag : ℕ → Bool) (l : List (ℚ × ℚ))
    (st : GState) :
    (gui_img_loop flag true l 0 st).adjusts = st.adjusts ∨
    (gui_img_loop flag true l 0 st).adjusts =
      st.adjusts ++ [st.prs.slides.length] := by
  cases l with
  | nil => exact Or.inl rfl
  | cons p rest =>
    obtain ⟨w, h⟩ := p
    unfold gui_img_loop
    by_cases hf : flag st.tick
    · left
      simp [hf]
    · simp only [hf, Bool.false_eq_true, if_false]
      rw [show (true && ((0 : ℕ) == 0)) = true from rfl]
      by_cases ha : (add_fitted_image_slide st.prs w h true).adjusted
      · right
        simp only [ha, if_true]
        exact gui_img_loop_adjusts_later flag rest 1 le_rfl _
      · left
        simp only [ha, Bool.false_eq_true, if_false]
        exact gui_img_loop_adjusts_later flag rest 1 le_rfl _

theorem gui_process_file_adjusts_not_vf (flag : ℕ → Bool) (cI cAS : Bool)
    (f : GFile) (st : GState) :
    (gui_process_file flag cI cAS false f st).adjusts = st.adjusts := by
  unfold gui_process_file
  split_ifs with h1 h2 h3 h4 h5
  · exact gui_img_loop_adjusts_not_vf flag f.pages 0 st
  · rfl
  · exact gui_copy_loop_adjusts flag f.slides st
  · rfl
  · exact gui_pdf_loop_adjusts_not_first f.pages 0 st.prs st.adjusts
  · rfl

theorem gui_process_file_adjusts_vf (flag : ℕ → Bool) (cI cAS : Bool)
    (f : GFile) (st : GState) :
    (gui_process_file flag cI cAS true f st).adjusts = st.adjusts ∨
    (gui_process_file flag cI cAS true f st).adjusts =
      st.adjusts ++ [st.prs.slides.length] := by
  unfold gui_process_file
  split_ifs with h1 h2 h3 h4 h5
  · exact gui_img_loop_adjusts_first flag f.pages st
  · exact Or.inl rfl
  · exact Or.inl (gui_copy_loop_adjusts flag f.slides st)
  · exact Or.inl rfl
  · exact gui_pdf_loop_adjusts_first f.pages st.prs st.adjusts
  · exact Or.inl rfl

theorem gui_file_loop_adjusts_not_blank (flag : ℕ → Bool) (cI cAS : Bool) :
    ∀ (files : List GFile) (i : ℕ) (st : GState),
      (gui_file_loop flag cI cAS false files i st).adjusts = st.adjusts
  | [], _, st => rfl
  | f :: rest, i, st => by
    unfold gui_file_loop
    by_cases hf : flag st.tick
    · simp [hf]
    · simp only [hf, Bool.false_eq_true, if_false, Bool.false_and]
      exact (gui_file_loop_adjusts_not_blank flag cI cAS rest (i + 1) _).trans
        (gui_process_file_adjusts_not_vf flag cI cAS f _)

theorem gui_file_loop_adjusts_later (flag : ℕ → Bool) (cI cAS : Bool) :
    ∀ (files : List GFile) (i : ℕ), 1 ≤ i → ∀ (st : GState),
      (gui_file_loop flag cI cAS true files i st).adjusts = st.adjusts
  | [], _, _, st => rfl
  | f :: rest, i, hi, st => by
    unfold gui_file_loop
    by_cases hf : flag st.tick
    · simp [hf]
    · rw [beq_zero_of_pos hi]
      simp only [hf, Bool.false_eq_true, if_false, Bool.and_false]
      exact (gui_file_loop_adjusts_later flag cI cAS rest (i + 1) (by omega) _).trans
        (gui_process_file_adjusts_not_vf flag cI cAS f _)

theorem gui_file_loop_adjusts_blank (flag : ℕ → Bool) (cI cAS : Bool)
    (files : List GFile) (st : GState) :
    (gui_file_loop flag cI cAS true files 0 st).adjusts = st.adjusts ∨
    (gui_file_loop flag cI cAS true files 0 st).adjusts =
      st.adjusts ++ [st.prs.slides.length] := by
  cases files with
  | nil => exact Or.inl rfl
  | cons f rest =>
    unfold gui_file_loop
    by_cases hf : flag st.tick
    · left
      simp [hf]
    · simp only [hf, Bool.false_eq_true, if_false]
      rw [show (true && ((0 : ℕ) == 0)) = true from rfl]
      rcases gui_process_file_adjusts_vf flag cI cAS f
          (GState.mk st.prs (st.tick + 1) st.obs st.adjusts) with h | h
      · exact Or.inl ((gui_file_loop_adjusts_later flag cI cAS rest 1 le_rfl _).trans h)
      · exact Or.inr ((gui_file_loop_adjusts_later flag cI cAS rest 1 le_rfl _).trans h)

theorem gui_do_combine_adjusts (flag : ℕ → Bool) (cI cAS : Bool)
    (entries : List GFile) (bW bH : ℚ) (bL : ℕ) :
    (gui_do_combine flag cI cAS entries bW bH bL).adjusts = [] ∨
    (gui_do_combine flag cI cAS entries bW bH bL).adjusts = [0] := by
  unfold gui_do_combine
  rcases collectBy (fun f : GFile => f.name) entries with _ | ⟨first, rest⟩
  · exact Or.inl rfl
  · by_cases hp : hasSuffix ".pptx" first.name
    · simp only [hp, if_true]
      by_cases hl : first.loadFails
      · simp only [hl, if_true]
        left
        trivial
      · simp only [hl, Bool.false_eq_true, if_false]
        exact Or.inl (gui_file_loop_adjusts_not_blank flag cI cAS rest 0 _)
    · simp only [hp, Bool.false_eq_true, if_false]
      rcases gui_file_loop_adjusts_blank flag cI cAS (first :: rest)
          (GState.mk (Prs.mk bW bH bL []) 0 false []) with h | h
      · exact Or.inl h
      · exact Or.inr h

theorem add_fitted_ratio (prs : Prs) (w h : ℚ)
    (hw : 0 < w) (hh : 0 < h) (hsw : 0 < prs.slideWidth)
    (hk1 : 1 ≤ pyInt (prs.slideWidth / (w / h))) :
    (add_fitted_image_slide prs w h true).adjusted = true ∧
    (add_fitted_image_slide prs w h true).raised = false ∧
    (add_fitted_image_slide prs w h true).prs.slideWidth = prs.slideWidth ∧
    (add_fitted_image_slide prs w h true).prs.slideHeight =
      ((pyInt (prs.slideWidth / (w / h)) : ℤ) : ℚ) ∧
    0 ≤ prs.slideWidth / ((pyInt (prs.slideWidth / (w / h)) : ℤ) : ℚ) - w / h ∧
    prs.slideWidth / ((pyInt (prs.slideWidth / (w / h)) : ℤ) : ℚ) - w / h <
      (w / h) / ((pyInt (prs.slideWidth / (w / h)) : ℤ) : ℚ) := by
  have ha : 0 < w / h := div_pos hw hh
  have hane : ¬(w / h = 0) := ne_of_gt ha
  have hhne : ¬(h = 0) := ne_of_gt hh
  have hq : 0 < prs.slideWidth / (w / h) := div_pos hsw ha
  have hfl : pyInt (prs.slideWidth / (w / h)) = ⌊prs.slideWidth / (w / h)⌋ := by
    simp [pyInt, hq.le]
  have hkpos : (0 : ℚ) < ((pyInt (prs.slideWidth / (w / h)) : ℤ) : ℚ) := by
    have h1 : (1 : ℚ) ≤ ((pyInt (prs.slideWidth / (w / h)) : ℤ) : ℚ) := by
      exact_mod_cast hk1
    linarith
  have hkne : ¬(((pyInt (prs.slideWidth / (w / h)) : ℤ) : ℚ) = 0) := ne_of_gt hkpos
  have hfloor_le : ((pyInt (prs.slideWidth / (w / h)) : ℤ) : ℚ) ≤
      prs.slideWidth / (w / h) := by
    rw [hfl]
    exact Int.floor_le _
  have hlt : prs.slideWidth / (w / h) <
      ((pyInt (prs.slideWidth / (w / h)) : ℤ) : ℚ) + 1 := by
    rw [hfl]
    exact Int.lt_floor_add_one _
  refine ⟨?_, ?_, ?_, ?_, ?_, ?_⟩
  · simp [add_fitted_image_slide, hhne, hane, hkne]
  · simp [add_fitted_image_slide, hhne, hane, hkne]
  · simp [add_fitted_image_slide, hhne, hane, hkne]
  · simp [add_fitted_image_slide, hhne, hane, hkne]
  · rw [sub_nonneg, le_div_iff₀ hkpos]
    calc w / h * ((pyInt (prs.slideWidth / (w / h)) : ℤ) : ℚ)
        ≤ w / h * (prs.slideWidth / (w / h)) :=
          mul_le_mul_of_nonneg_left hfloor_le ha.le
      _ = prs.slideWidth := by
          field_simp
          ring
  · rw [sub_lt_iff_lt_add, div_lt_iff₀ hkpos]
    have hstep : prs.slideWidth <
        w / h * (((pyInt (prs.slideWidth / (w / h)) : ℤ) : ℚ) + 1) := by
      calc prs.slideWidth = w / h * (prs.slideWidth / (w / h)) := by
            field_simp
            ring
        _ < w / h * (((pyInt (prs.slideWidth / (w / h)) : ℤ) : ℚ) + 1) :=
          mul_lt_mul_of_pos_left hlt ha
    calc prs.slideWidth
        < w / h * (((pyInt (prs.slideWidth / (w / h)) : ℤ) : ℚ) + 1) := hstep
      _ = (w / h / ((pyInt (prs.slideWidth / (w / h)) : ℤ) : ℚ) + w / h) *
          ((pyInt (prs.slideWidth / (w / h)) : ℤ) : ℚ) := by
          rw [add_mul, div_mul_cancel₀ _ hkne]
          ring

/-- C3.  In aspect-ratio-matching mode the canvas-height adjustment
fires at most once per run, and only on the very first raster page of
a run that started from a blank accumulator — i.e. when no slide yet
existed in the accumulator at the call's entry (the recorded entry
slide count is 0).  An adjusting call rewrites only the slide height,
to `int(canvasW / imageRatio)`, keeping the width fixed, and the
resulting canvas ratio `canvasW / newH` matches the image ratio up to
the `int()` truncation: `0 ≤ canvasW/newH − imgRatio < imgRatio/newH`
(one EMU of height, far below floating-point visibility at EMU
scale). -/
theorem claim_C3 (flag : ℕ → Bool) (cI cAS : Bool) (entries : List GFile)
    (bW bH : ℚ) (bL : ℕ) (prs : Prs) (w h : ℚ)
    (hw : 0 < w) (hh : 0 < h) (hsw : 0 < prs.slideWidth)
    (hk1 : 1 ≤ pyInt (prs.slideWidth / (w / h))) :
    ((gui_do_combine flag cI cAS entries bW bH bL).adjusts = [] ∨
     (gui_do_combine flag cI cAS entries bW bH bL).adjusts = [0]) ∧
    ((add_fitted_image_slide prs w h true).adjusted = true ∧
     (add_fitted_image_slide prs w h true).raised = false ∧
     (add_fitted_image_slide prs w h true).prs.slideWidth = prs.slideWidth ∧
     (add_fitted_image_slide prs w h true).prs.slideHeight =
       ((pyInt (prs.slideWidth / (w / h)) : ℤ) : ℚ) ∧
     0 ≤ prs.slideWidth / ((pyInt (prs.slideWidth / (w / h)) : ℤ) : ℚ) - w / h ∧
     prs.slideWidth / ((pyInt (prs.slideWidth / (w / h)) : ℤ) : ℚ) - w / h <
       (w / h) / ((pyInt (prs.slideWidth / (w / h)) : ℤ) : ℚ)) :=
  ⟨gui_do_combine_adjusts flag cI cAS entries bW bH bL,
   add_fitted_ratio prs w h hw hh hsw hk1⟩

/-- Witness for C3: a one-PDF blank-start run and a concrete adjusting
call (canvas width 12, image 4:3, adjusted height `int(9) = 9`). -/
theorem claim_C3_witness :
    ((gui_do_combine (fun _ => false) false false
        [GFile.mk "x.pdf" [(4, 3)] [] 0 0 0 [] false false] 12 9 11).adjusts = [] ∨
     (gui_do_combine (fun _ => false) false false
        [GFile.mk "x.pdf" [(4, 3)] [] 0 0 0 [] false false] 12 9 11).adjusts = [0]) ∧
    ((add_fitted_image_slide (Prs.mk 12 9 11 []) 4 3 true).adjusted = true ∧
     (add_fitted_image_slide (Prs.mk 12 9 11 []) 4 3 true).raised = false ∧
     (add_fitted_image_slide (Prs.mk 12 9 11 []) 4 3 true).prs.slideWidth =
       (Prs.mk 12 9 11 []).slideWidth ∧
     (add_fitted_image_slide (Prs.mk 12 9 11 []) 4 3 true).prs.slideHeight =
       ((pyInt ((Prs.mk 12 9 11 []).slideWidth / (4 / 3)) : ℤ) : ℚ) ∧
     0 ≤ (Prs.mk 12 9 11 []).slideWidth /
         ((pyInt ((Prs.mk 12 9 11 []).slideWidth / (4 / 3)) : ℤ) : ℚ) - 4 / 3 ∧
     (Prs.mk 12 9 11 []).slideWidth /
         ((pyInt ((Prs.mk 12 9 11 []).slideWidth / (4 / 3)) : ℤ) : ℚ) - 4 / 3 <
       (4 / 3) / ((pyInt ((Prs.mk 12 9 11 []).slideWidth / (4 / 3)) : ℤ) : ℚ)) :=
  claim_C3 (fun _ => false) false false
    [GFile.mk "x.pdf" [(4, 3)] [] 0 0 0 [] false false] 12 9 11
    (Prs.mk 12 9 11 []) 4 3 (by norm_num) (by norm_num) (by norm_num)
    (by norm_num [pyInt])

end PptCombine
